import Mathlib

/-!
Verification of the Acorn storage engine core against its specification.

The development shallowly embeds the Rust sources:
- `Acorn.Cache`: the tri-queue buffer-cache replacer
  (src/acorn/src/cache/manager.rs, `CacheManager`);
- `Acorn.Storage`: the `Vec<u8>` implementation of `StorageFile`
  (src/acorn/src/storage/file.rs);
- `Acorn.WalFileFormat`: WAL header validation
  (src/acorn/src/wal.rs, `Wal::load`);
- `Acorn.PageStore`: the write-ahead log with generations, state tracking,
  undo and recovery (src/crates/acorn/src/page_store/wal.rs).

Machine integers are modelled as `Nat` (no arithmetic in the embedded code
overflows); Rust `HashMap`s are modelled as association lists with unique
keys (insertion order; no embedded claim depends on hash iteration order);
fallible operations return `Except`; a Rust panic is modelled as `none`.
-/

namespace Acorn.Cache

/-- The tri-queue replacer of src/acorn/src/cache/manager.rs. Queues are
lists whose head is the `VecDeque` front and whose last element is the back.
Keys are `Nat` (the Rust `PageNumber` is a `NonZeroU16`; nothing in the
algorithm depends on the key type). -/
structure CacheManager where
  slow : List Nat
  fast_cap : Nat
  fast : List Nat
  graveyard_cap : Nat
  graveyard : List Nat
deriving DecidableEq

/-- `CacheManager::new(length)`. -/
def CacheManager.new (length : Nat) : CacheManager :=
  { slow := []
    fast_cap := length / 4
    fast := []
    graveyard_cap := length / 2
    graveyard := [] }

/-- `CacheManager::access(item)`: no-op if in `fast`; LRU touch if in `slow`
(remove first occurrence, push front); resurrect to `slow` front if in
`graveyard` (leaving the graveyard entry in place); otherwise push to the
front of `fast`. -/
def CacheManager.access (m : CacheManager) (item : Nat) : CacheManager :=
  if item ∈ m.fast then m
  else if item ∈ m.slow then
    { m with slow := item :: m.slow.erase item }
  else if item ∈ m.graveyard then
    { m with slow := item :: m.slow }
  else
    { m with fast := item :: m.fast }

/-- `CacheManager::reclaim()`: if `fast` is over capacity, pop its back,
push it to the graveyard front, trim the graveyard back when over capacity,
and return the popped key; otherwise pop the back of `slow`. Returns the
reclaimed key together with the updated replacer. -/
def CacheManager.reclaim (m : CacheManager) : Option Nat × CacheManager :=
  if m.fast.length > m.fast_cap then
    match m.fast.getLast? with
    | some reclaimed =>
      let g := reclaimed :: m.graveyard
      let g := if g.length > m.graveyard_cap then g.dropLast else g
      (some reclaimed, { m with fast := m.fast.dropLast, graveyard := g })
    | none => (none, m)
  else
    match m.slow.getLast? with
    | some reclaimed => (some reclaimed, { m with slow := m.slow.dropLast })
    | none => (none, m)

/-- One call of the replacer's public interface. -/
inductive CacheOp where
  | access (item : Nat)
  | reclaim
deriving DecidableEq

/-- Apply one call, discarding `reclaim`'s return value. -/
def CacheManager.step (m : CacheManager) : CacheOp → CacheManager
  | .access item => m.access item
  | .reclaim => m.reclaim.2

/-- The replacer after a sequence of calls on `CacheManager::new length`. -/
def runCache (length : Nat) (ops : List CacheOp) : CacheManager :=
  ops.foldl CacheManager.step (CacheManager.new length)

end Acorn.Cache

namespace Acorn.Storage

/-- `get_buf_range(len, buf_len, offset)` of src/acorn/src/storage/file.rs:
the half-open range `offset .. min (offset + buf_len) len` as a pair. -/
def get_buf_range (len buf_len : Nat) (offset : Nat) : Nat × Nat :=
  (offset, min (offset + buf_len) len)

/-- Rust slice indexing `self[start..stop]`: `none` models the panic when
`start > stop` or `stop > self.len()`. -/
def sliceRange (self : List Nat) (start stop : Nat) : Option (List Nat) :=
  if start ≤ stop ∧ stop ≤ self.length then
    some ((self.drop start).take (stop - start))
  else none

/-- `<Vec<u8> as StorageFile>::read_at`: returns the bytes copied into `buf`
together with `num_read`; `none` models a panic (of the slice indexing, or
of `copy_from_slice` when the range is shorter than `buf`). -/
def read_at (self : List Nat) (buf : List Nat) (offset : Nat) :
    Option (List Nat × Nat) :=
  let range := get_buf_range self.length buf.length offset
  let num_read := range.2 - range.1
  match sliceRange self range.1 range.2 with
  | none => none
  | some s => if s.length = buf.length then some (s, num_read) else none

/-- `<Vec<u8> as StorageFile>::write_at`: returns the updated vector together
with `num_written`; `none` models a panic (of the slice indexing, or of
`copy_from_slice` when the range's length differs from `buf`'s). -/
def write_at (self : List Nat) (buf : List Nat) (offset : Nat) :
    Option (List Nat × Nat) :=
  let range := get_buf_range self.length buf.length offset
  let num_written := range.2 - range.1
  if range.1 ≤ range.2 ∧ range.2 ≤ self.length then
    if range.2 - range.1 = buf.length then
      some (self.take range.1 ++ buf ++ self.drop range.2, num_written)
    else none
  else none

end Acorn.Storage

namespace Acorn.WalFileFormat

/-- Modelled from the spec: `ByteOrder` (crate::utils::byte_order, not under
src/): `byte_order: u8` with 0 = little endian, 1 = big endian; the native
order is one of the two and is kept as an explicit parameter below. -/
inductive ByteOrder where
  | little
  | big
deriving DecidableEq

/-- Modelled from the spec: `ByteOrder::from_byte`, `none` on any byte other
than 0 or 1. -/
def ByteOrder.from_byte : Nat → Option ByteOrder
  | 0 => some .little
  | 1 => some .big
  | _ => none

/-- Modelled from the spec: `WAL_MAGIC` (crate::consts, not under src/) is
the four bytes of `"ACNL"`. -/
def WAL_MAGIC : List Nat := [65, 67, 78, 76]

/-- The fixed WAL file header of src/acorn/src/wal.rs (`WalHeader`), with
its `magic`, `log_start`, `page_size` and `byte_order` fields already read
from the file. -/
structure WalHeader where
  magic : List Nat
  log_start : Nat
  page_size : Nat
  byte_order : Nat
deriving DecidableEq

/-- `LoadError` of src/acorn/src/wal.rs (the `Io` variant models a file
error and is not produced by header validation). -/
inductive LoadError where
  | NotAWalFile
  | Corrupted
  | PageSizeMismatch (found expected : Nat)
  | ByteOrderMismatch (found : ByteOrder)
  | Io
deriving DecidableEq

/-- The loaded `Wal` value's header-derived fields. -/
structure LoadedWal where
  log_start : Nat
  page_size : Nat
deriving DecidableEq

/-- `Wal::load` of src/acorn/src/wal.rs, restricted to its header
validation (the file seeks and reads are I/O and always succeed here):
check magic, then byte-order validity, then byte-order nativeness, then
page size, in the source's order. -/
def load (native : ByteOrder) (header : WalHeader) (params_page_size : Nat) :
    Except LoadError LoadedWal :=
  if header.magic ≠ WAL_MAGIC then .error .NotAWalFile
  else
    match ByteOrder.from_byte header.byte_order with
    | none => .error .Corrupted
    | some byte_order =>
      if byte_order ≠ native then .error (.ByteOrderMismatch byte_order)
      else if header.page_size ≠ params_page_size then
        .error (.PageSizeMismatch header.page_size params_page_size)
      else .ok { log_start := header.log_start, page_size := header.page_size }

end Acorn.WalFileFormat

namespace Acorn.PageStore

/-- Modelled from the spec: `WalIndex` (page_store module root, not under
src/): `(generation: u64, offset: u64 > 0)`, totally ordered
lexicographically. -/
structure WalIndex where
  generation : Nat
  offset : Nat
deriving DecidableEq

/-- Lexicographic strict order on `WalIndex` (the derived Rust `Ord`). -/
def WalIndex.lt (a b : WalIndex) : Prop :=
  a.generation < b.generation ∨
    (a.generation = b.generation ∧ a.offset < b.offset)

instance (a b : WalIndex) : Decidable (WalIndex.lt a b) := by
  unfold WalIndex.lt
  infer_instance

/-- `last_indices.iter().min().unwrap()` on a nonempty list given as head and
tail: Rust's `Iterator::min` keeps the earliest minimal element. -/
def minWalIndex (x : WalIndex) (xs : List WalIndex) : WalIndex :=
  xs.foldl (fun acc b => if WalIndex.lt b acc then b else acc) x

/-- Modelled from the spec: `PageAddress` (page_store module root, not under
src/): `(segment_num: u32, page_num: u16 > 0)`. -/
structure PageAddress where
  segment_num : Nat
  page_num : Nat
deriving DecidableEq

/-- Modelled from the spec: `TransactionState` kept in memory and
snapshotted into checkpoints: `{ first_gen: u64, last_index: WalIndex }`. -/
structure TransactionState where
  first_gen : Nat
  last_index : WalIndex
deriving DecidableEq

/-- Modelled from the spec: `TransactionData` embedded in Write/Commit
items: `{ transaction_id: u64, prev_transaction_item: Option<WalIndex> }`. -/
structure TransactionData where
  transaction_id : Nat
  prev_transaction_item : Option WalIndex
deriving DecidableEq

/-- Modelled from the spec: `wal::WriteData` (crate::files::wal, not under
src/): the payload of a `Write` item. `from_buf` stands for the Rust field
`from` (`from` is absent exactly on compensation records). -/
structure WriteData where
  transaction_data : TransactionData
  page_address : PageAddress
  offset : Nat
  from_buf : Option (List Nat)
  to_buf : List Nat
deriving DecidableEq

/-- Modelled from the spec: `wal::CheckpointData`: a snapshot of the dirty
page table and the open-transaction table. -/
structure CheckpointData where
  dirty_pages : List (PageAddress × WalIndex)
  transactions : List (Nat × TransactionState)
deriving DecidableEq

/-- Modelled from the spec: `wal::Item`, the tagged union of the three WAL
item variants. -/
inductive Item where
  | write (data : WriteData)
  | commit (data : TransactionData)
  | checkpoint (data : CheckpointData)
deriving DecidableEq

/-- Lookup in an association list (the model of `HashMap::get`). -/
def alookup {α β : Type} [DecidableEq α] (k : α) : List (α × β) → Option β
  | [] => none
  | (a, b) :: t => if a = k then some b else alookup k t

/-- Remove a key from an association list (the model of `HashMap::remove`). -/
def aremove {α β : Type} [DecidableEq α] (k : α) : List (α × β) → List (α × β)
  | [] => []
  | (a, b) :: t => if a = k then aremove k t else (a, b) :: aremove k t

/-- Replace the value bound to a key that is present (the model of updating
an occupied `HashMap` entry in place). -/
def aupdate {α β : Type} [DecidableEq α] (k : α) (v : β) :
    List (α × β) → List (α × β)
  | [] => []
  | (a, b) :: t => if a = k then (a, v) :: t else (a, b) :: aupdate k v t

/-- The in-memory `State` of src/crates/acorn/src/page_store/wal.rs, with
its two `HashMap`s as association lists in insertion order. -/
structure State where
  dirty_pages : List (PageAddress × WalIndex)
  transactions : List (Nat × TransactionState)
deriving DecidableEq

/-- `State::track_transaction`: insert `{first_gen := index.generation,
last_index := index}` when the id is new, else update `last_index` only. -/
def State.track_transaction (s : State) (index : WalIndex) (tid : Nat) :
    State :=
  match alookup tid s.transactions with
  | none =>
    { s with
      transactions := s.transactions ++
        [(tid, { first_gen := index.generation, last_index := index })] }
  | some ts =>
    { s with
      transactions := aupdate tid { ts with last_index := index } s.transactions }

/-- `State::complete_transaction`. -/
def State.complete_transaction (s : State) (tid : Nat) : State :=
  { s with transactions := aremove tid s.transactions }

/-- `State::track_write`: track the transaction, then `dirty_pages.entry(
page_address).or_insert(index)`. -/
def State.track_write (s : State) (index : WalIndex) (data : WriteData) :
    State :=
  let s := s.track_transaction index data.transaction_data.transaction_id
  match alookup data.page_address s.dirty_pages with
  | some _ => s
  | none => { s with dirty_pages := s.dirty_pages ++ [(data.page_address, index)] }

/-- `State::cache_did_flush`: clear the dirty page table. -/
def State.cache_did_flush (s : State) : State :=
  { s with dirty_pages := [] }

/-- The value of `u64::MAX`. -/
def U64_MAX : Nat := 2 ^ 64 - 1

/-- `State::first_needed_generation`: the minimum `first_gen` over the open
transactions, or `u64::MAX` when none are open. -/
def State.first_needed_generation (s : State) : Nat :=
  match s.transactions.map fun t => t.2.first_gen with
  | [] => U64_MAX
  | x :: xs => xs.foldl Nat.min x

/-- `State::handle_item`. -/
def State.handle_item (s : State) (index : WalIndex) (item : Item) : State :=
  match item with
  | .write data => s.track_write index data
  | .commit data => s.complete_transaction data.transaction_id
  | .checkpoint _ => s

/-- Abstract distance between consecutive item offsets in a generation file
(offset 0 is the reserved sentinel, so the first item sits at offset 10). -/
def ITEM_SPACING : Nat := 10

/-- Modelled from the spec: a WAL generation file (crate::files::wal's
`WalFileApi`, not under src/): an append-only list of `(offset, item)`
pairs in ascending offset order. `next_offset` is the offset the next
pushed item receives; `flushed_len` counts the items already flushed to
the OS; `fail_push = some e` makes every append fail with the I/O error
`e` (the model of a failing disk). Background checkpoint tasks (spawned
when `size` crosses `max_generation_size`) run on another thread and are
not part of this sequential model. -/
structure WalFile where
  items : List (Nat × Item)
  next_offset : Nat
  flushed_len : Nat
  fail_push : Option Nat
deriving DecidableEq

/-- Modelled from the spec: `WalFileApi::push_item`: append at
`next_offset`, or fail with the file's configured I/O error. -/
def WalFile.push_item (f : WalFile) (item : Item) : Except Nat WalFile :=
  match f.fail_push with
  | some e => .error e
  | none =>
    .ok { f with
          items := f.items ++ [(f.next_offset, item)]
          next_offset := f.next_offset + ITEM_SPACING }

/-- Modelled from the spec: `WalFileApi::flush`: everything appended so far
becomes durable. -/
def WalFile.flush (f : WalFile) : WalFile :=
  { f with flushed_len := f.items.length }

/-- One generation of the queue (`WalGeneration`). -/
structure WalGeneration where
  gen_num : Nat
  file : WalFile
deriving DecidableEq

/-- `GenerationQueue`: front of the `VecDeque` is the list head, the
current generation is the back. -/
structure GenerationQueue where
  generations : List WalGeneration
  current_gen_num : Nat
deriving DecidableEq

/-- `GenerationQueue::current_generation`: the back generation's file. -/
def GenerationQueue.current_generation (g : GenerationQueue) :
    Option WalFile :=
  g.generations.getLast?.map fun gen => gen.file

/-- Write an updated file back into the current (back) generation: the model
of mutating through the current generation's file lock. -/
def GenerationQueue.with_current (g : GenerationQueue) (f : WalFile) :
    GenerationQueue :=
  match g.generations.getLast? with
  | none => g
  | some gen =>
    { g with generations := g.generations.dropLast ++ [{ gen with file := f }] }

/-- `StorageError`, restricted to the variants the WAL code produces. -/
inductive StorageError where
  | File (e : Nat)
  | WalNotInitialized
deriving DecidableEq

/-- `PartialWriteOp`: what the WAL hands to the buffer cache's callback. -/
structure PartialWriteOp where
  index : WalIndex
  page_address : PageAddress
  offset : Nat
  buf : List Nat
deriving DecidableEq

/-- `WriteLog`: the argument of `WalApi::log_write`. -/
structure WriteLog where
  transaction_id : Nat
  page_address : PageAddress
  offset : Nat
  from_buf : List Nat
  to_buf : List Nat
deriving DecidableEq

/-- `CommitLog`: the argument of `WalApi::log_commit`. -/
structure CommitLog where
  transaction_id : Nat
deriving DecidableEq

/-- `UndoLog`: a materialized compensation. -/
structure UndoLog where
  transaction_id : Nat
  page_address : PageAddress
  offset : Nat
  to_buf : List Nat
deriving DecidableEq

/-- The `Wal` struct's mutable core: the generation queue behind its
`RwLock` and the `State` behind its `Mutex`. -/
structure Wal where
  generations : GenerationQueue
  state : State
deriving DecidableEq

/-- `Wal::create_transaction_data`. -/
def Wal.create_transaction_data (w : Wal) (transaction_id : Nat) :
    TransactionData :=
  { transaction_id
    prev_transaction_item :=
      (alookup transaction_id w.state.transactions).map fun ts => ts.last_index }

/-- `Wal::create_write_data`. -/
def Wal.create_write_data (w : Wal) (log : WriteLog) : WriteData :=
  { transaction_data := w.create_transaction_data log.transaction_id
    page_address := log.page_address
    offset := log.offset
    from_buf := some log.from_buf
    to_buf := log.to_buf }

/-- `Wal::create_undo_write_data`: a compensation `Write` with no `from`. -/
def Wal.create_undo_write_data (w : Wal) (log : UndoLog) : WriteData :=
  { transaction_data := w.create_transaction_data log.transaction_id
    page_address := log.page_address
    offset := log.offset
    from_buf := none
    to_buf := log.to_buf }

/-- `Wal::push_raw_item`: allocate the item's index from the current file's
next offset, update `State` (this happens before the append, as in the
source), then append. The pair returned is the Rust `Result` together with
the `Wal` as the call leaves it (the `State` mutation survives a failed
append). -/
def Wal.push_raw_item (w : Wal) (item : Item) :
    Except StorageError WalIndex × Wal :=
  match w.generations.current_generation with
  | none => (.error .WalNotInitialized, w)
  | some file =>
    let index : WalIndex :=
      { generation := w.generations.current_gen_num, offset := file.next_offset }
    let w := { w with state := w.state.handle_item index item }
    match file.push_item item with
    | .error e => (.error (.File e), w)
    | .ok file' => (.ok index, { w with generations := w.generations.with_current file' })

/-- `Wal::flush_impl`: flush the current generation file, if any. -/
def Wal.flush_current (w : Wal) : Wal :=
  match w.generations.current_generation with
  | none => w
  | some file =>
    { w with generations := w.generations.with_current file.flush }

/-- `WalApi::log_write` for `Wal`: append the `Write` item; no flush. -/
def Wal.log_write (w : Wal) (log : WriteLog) :
    Except StorageError WalIndex × Wal :=
  w.push_raw_item (.write (w.create_write_data log))

/-- `WalApi::log_commit` for `Wal`: append the `Commit` item, then flush the
current generation, then return the item's index. -/
def Wal.log_commit (w : Wal) (log : CommitLog) :
    Except StorageError WalIndex × Wal :=
  let transaction_data := w.create_transaction_data log.transaction_id
  match w.push_raw_item (.commit transaction_data) with
  | (.error e, w') => (.error e, w')
  | (.ok index, w') => (.ok index, w'.flush_current)

/-- `WalApi::cache_did_flush` for `Wal`: clear the dirty page table; nothing
else changes and no file is touched. -/
def Wal.cache_did_flush (w : Wal) : Wal :=
  { w with state := w.state.cache_did_flush }

/-- The generation numbers `Wal::cleanup_generations` collects into
`delete_gens`: a prefix of the queue, stopped at the first generation that
is still needed or is the current one. -/
def cleanup_collect (gens : List WalGeneration)
    (first_needed current : Nat) : List Nat :=
  match gens with
  | [] => []
  | g :: rest =>
    if first_needed ≤ g.gen_num ∨ g.gen_num = current then []
    else g.gen_num :: cleanup_collect rest first_needed current

/-- `Wal::cleanup_generations`: pop and delete the collected prefix. Returns
the generation numbers passed to `folder.delete_wal_file`, in order,
together with the updated `Wal`. -/
def Wal.cleanup_generations (w : Wal) : List Nat × Wal :=
  let first_needed := w.state.first_needed_generation
  let dels := cleanup_collect w.generations.generations first_needed
    w.generations.current_gen_num
  (dels,
    { w with
      generations :=
        { w.generations with
          generations := w.generations.generations.drop dels.length } })

/-- `Wal::read_initial_state`: seed `State` from the first `Checkpoint` item
of the current generation file, or leave it empty. -/
def Wal.read_initial_state (w : Wal) (file : WalFile) : Wal :=
  let checkpoint_data := file.items.findSome? fun oi =>
    match oi.2 with
    | .checkpoint data => some data
    | _ => none
  { w with
    state :=
      match checkpoint_data with
      | some data =>
        { dirty_pages := data.dirty_pages, transactions := data.transactions }
      | none => { dirty_pages := [], transactions := [] } }

/-- `Wal::recover_state`: fold `State::handle_item` over every item of the
file. -/
def Wal.recover_state (w : Wal) (file : WalFile) (gen_num : Nat) : Wal :=
  { w with
    state := file.items.foldl
      (fun s oi => s.handle_item { generation := gen_num, offset := oi.1 } oi.2)
      w.state }

/-- `Wal::redo_write`: emit the write unless its page is clean or the index
is older than the page's first dirty index. The emitted operations are
accumulated in order (the model of calling `handle`). -/
def Wal.redo_write (w : Wal) (index : WalIndex) (data : WriteData)
    (ops : List PartialWriteOp) : List PartialWriteOp :=
  match alookup data.page_address w.state.dirty_pages with
  | none => ops
  | some first_dirty_index =>
    if WalIndex.lt index first_dirty_index then ops
    else
      ops ++ [{ index
                page_address := data.page_address
                offset := data.offset
                buf := data.to_buf }]

/-- `Wal::redo`: forward scan of the file, emitting via `redo_write`. -/
def Wal.redo (w : Wal) (file : WalFile) (gen_num : Nat) :
    List PartialWriteOp :=
  file.items.foldl
    (fun ops oi =>
      match oi.2 with
      | .write data =>
        w.redo_write { generation := gen_num, offset := oi.1 } data ops
      | _ => ops)
    []

/-- `Wal::create_undo_log`: `none` when the write is itself a compensation
(absent `from`). -/
def create_undo_log (write : WriteData) : Option UndoLog :=
  write.from_buf.map fun from_buf =>
    { transaction_id := write.transaction_data.transaction_id
      page_address := write.page_address
      offset := write.offset
      to_buf := from_buf }

/-- The inner `'item_loop` of `Wal::undo_all` over one generation's items in
reverse order (the input list is already reversed, newest first): collect
compensations for the victim transactions; the `Bool` is true when the
`'gen_loop` must break because the index dropped below `lowest_index`. -/
def collect_undo_file (transaction_ids : List Nat) (lowest : WalIndex)
    (gen_num : Nat) : List (Nat × Item) → List UndoLog × Bool
  | [] => ([], false)
  | (offset, item) :: rest =>
    if WalIndex.lt { generation := gen_num, offset } lowest then ([], true)
    else
      let tail := collect_undo_file transaction_ids lowest gen_num rest
      match item with
      | .write data =>
        if data.transaction_data.transaction_id ∈ transaction_ids then
          match create_undo_log data with
          | some undo => (undo :: tail.1, tail.2)
          | none => tail
        else tail
      | _ => tail

/-- The `'gen_loop` of `Wal::undo_all`: walk the generations newest to
oldest (the input list is already reversed). -/
def collect_undo_gens (transaction_ids : List Nat) (lowest : WalIndex) :
    List WalGeneration → List UndoLog
  | [] => []
  | g :: rest =>
    let here := collect_undo_file transaction_ids lowest g.gen_num
      g.file.items.reverse
    if here.2 then here.1
    else here.1 ++ collect_undo_gens transaction_ids lowest rest

/-- The replay loop of `Wal::undo_all`: `apply_undo_log` for each collected
compensation in discovery order (append the compensation `Write`, then
emit the `PartialWriteOp`), aborting on the first error. -/
def Wal.apply_undo_logs (w : Wal) (logs : List UndoLog)
    (ops : List PartialWriteOp) :
    Except StorageError (Wal × List PartialWriteOp) :=
  match logs with
  | [] => .ok (w, ops)
  | log :: rest =>
    let write_data := w.create_undo_write_data log
    match w.push_raw_item (.write write_data) with
    | (.error e, _) => .error e
    | (.ok index, w') =>
      w'.apply_undo_logs rest
        (ops ++ [{ index
                   page_address := log.page_address
                   offset := log.offset
                   buf := log.to_buf }])

/-- The final loop of `Wal::undo_all`: append a `Commit` for each victim and
mark it complete in `State`. -/
def Wal.push_undo_commits (w : Wal) : List Nat → Except StorageError Wal
  | [] => .ok w
  | tid :: rest =>
    match w.push_raw_item (.commit (w.create_transaction_data tid)) with
    | (.error e, _) => .error e
    | (.ok _, w') =>
      Wal.push_undo_commits { w' with state := w'.state.complete_transaction tid } rest

/-- `Wal::undo_all`: find the lowest `last_index` among the victims, collect
compensations walking the WAL backwards, replay them, then commit each
victim. Returns the updated `Wal` and the emitted operations in order. -/
def Wal.undo_all (w : Wal) (transaction_ids : List Nat) :
    Except StorageError (Wal × List PartialWriteOp) :=
  let last_indices := transaction_ids.filterMap fun tid =>
    (alookup tid w.state.transactions).map fun ts => ts.last_index
  match last_indices with
  | [] => .ok (w, [])
  | x :: xs =>
    let lowest := minWalIndex x xs
    let logs := collect_undo_gens transaction_ids lowest
      w.generations.generations.reverse
    match w.apply_undo_logs logs [] with
    | .error e => .error e
    | .ok (w', ops) =>
      match w'.push_undo_commits transaction_ids with
      | .error e => .error e
      | .ok w'' => .ok (w'', ops)

/-- `WalApi::recover` for `Wal`: seed state from the first checkpoint of the
current generation, replay the generation's items into state, redo, then
undo every transaction still open. Returns the updated `Wal` together with
every `PartialWriteOp` handed to the callback, in invocation order. -/
def Wal.recover (w : Wal) :
    Except StorageError (Wal × List PartialWriteOp) :=
  match w.generations.current_generation with
  | none => .error .WalNotInitialized
  | some file =>
    let w1 := w.read_initial_state file
    let w2 := w1.recover_state file w.generations.current_gen_num
    let redo_ops := w2.redo file w.generations.current_gen_num
    let all_tids := w2.state.transactions.map fun t => t.1
    match w2.undo_all all_tids with
    | .error e => .error e
    | .ok (w3, undo_ops) => .ok (w3, redo_ops ++ undo_ops)

/-- The operations `recover` emits, or `none` on error. -/
def recoverOps (w : Wal) : Option (List PartialWriteOp) :=
  match w.recover with
  | .ok (_, ops) => some ops
  | .error _ => none

/-- Generation 2 of the two-generation recovery scenario (spec §4.D.5): an
initial checkpoint at offset 10 and the uncommitted write of transaction 1
at offset 20. -/
def scenarioGen2 : WalFile :=
  { items :=
      [(10, .checkpoint { dirty_pages := [], transactions := [] }),
       (20, .write
         { transaction_data := { transaction_id := 1, prev_transaction_item := none }
           page_address := { segment_num := 100, page_num := 200 }
           offset := 25
           from_buf := some [2, 2, 2, 2]
           to_buf := [1, 2, 3, 4] })]
    next_offset := 30
    flushed_len := 2
    fail_push := none }

/-- Generation 3 of the recovery scenario: the committed write of
transaction 2 at offset 10, the checkpoint at offset 20 recording
transaction 1 and its dirty page, and transaction 2's commit at offset
30. -/
def scenarioGen3 : WalFile :=
  { items :=
      [(10, .write
         { transaction_data := { transaction_id := 2, prev_transaction_item := none }
           page_address := { segment_num := 25, page_num := 69 }
           offset := 100
           from_buf := some [0, 0, 0, 0]
           to_buf := [1, 2, 3, 4] }),
       (20, .checkpoint
         { dirty_pages :=
             [({ segment_num := 100, page_num := 200 }, { generation := 2, offset := 20 })]
           transactions :=
             [(1, { first_gen := 2, last_index := { generation := 2, offset := 20 } })] }),
       (30, .commit { transaction_id := 2, prev_transaction_item := some { generation := 2, offset := 30 } })]
    next_offset := 40
    flushed_len := 0
    fail_push := none }

/-- The WAL as opened on the two-generation recovery scenario. -/
def scenarioWal : Wal :=
  { generations :=
      { generations :=
          [{ gen_num := 2, file := scenarioGen2 },
           { gen_num := 3, file := scenarioGen3 }]
        current_gen_num := 3 }
    state := { dirty_pages := [], transactions := [] } }

/-- A one-generation WAL whose (empty) current file fails every append with
I/O error 5. -/
def failingWal : Wal :=
  { generations :=
      { generations :=
          [{ gen_num := 0
             file := { items := [], next_offset := 10, flushed_len := 0, fail_push := some 5 } }]
        current_gen_num := 0 }
    state := { dirty_pages := [], transactions := [] } }

/-- The empty, never-failing generation file used by the concrete
witnesses. -/
def emptyFile : WalFile :=
  { items := [], next_offset := 10, flushed_len := 0, fail_push := none }

/-- A healthy one-generation WAL with transaction 7 open. -/
def healthyWal : Wal :=
  { generations :=
      { generations := [{ gen_num := 0, file := emptyFile }]
        current_gen_num := 0 }
    state :=
      { dirty_pages := []
        transactions := [(7, { first_gen := 0, last_index := { generation := 0, offset := 4 } })] } }

/-- A sample `WriteLog` for transaction 7. -/
def sampleWriteLog : WriteLog :=
  { transaction_id := 7
    page_address := { segment_num := 1, page_num := 1 }
    offset := 0
    from_buf := [0]
    to_buf := [1] }

/-- A WAL with two generations 1 and 2 (2 current) and no open transaction,
so that cleanup deletes generation 1. -/
def cleanupWal : Wal :=
  { generations :=
      { generations :=
          [{ gen_num := 1, file := emptyFile },
           { gen_num := 2, file := emptyFile }]
        current_gen_num := 2 }
    state := { dirty_pages := [], transactions := [] } }

end Acorn.PageStore

namespace Acorn.Cache

/-- The reachable-state invariant of the replacer: the fast and slow queues
hold each key at most once and never share a key, and the graveyard never
exceeds its capacity. -/
def Inv (m : CacheManager) : Prop :=
  m.fast.Nodup ∧ m.slow.Nodup ∧ m.fast.Disjoint m.slow ∧
    m.graveyard.length ≤ m.graveyard_cap

end Acorn.Cache

namespace Acorn.Cache

theorem Inv.new (length : Nat) : Inv (CacheManager.new length) := by
  refine ⟨List.nodup_nil, List.nodup_nil, ?_, Nat.zero_le _⟩
  intro a ha
  simp [CacheManager.new] at ha

theorem Inv.access {m : CacheManager} (h : Inv m) (item : Nat) :
    Inv (m.access item) := by
  obtain ⟨hf, hs, hd, hg⟩ := h
  unfold CacheManager.access
  split_ifs with h1 h2 h3
  · exact ⟨hf, hs, hd, hg⟩
  · refine ⟨hf, ?_, ?_, hg⟩
    · refine List.nodup_cons.mpr ⟨?_, hs.erase item⟩
      intro hmem
      exact ((hs.mem_erase_iff).mp hmem).1 rfl
    · intro a haf hacons
      rcases List.mem_cons.mp hacons with rfl | hae
      · exact h1 haf
      · exact hd haf (List.mem_of_mem_erase hae)
  · refine ⟨hf, List.nodup_cons.mpr ⟨h2, hs⟩, ?_, hg⟩
    intro a haf hacons
    rcases List.mem_cons.mp hacons with rfl | hae
    · exact h1 haf
    · exact hd haf hae
  · refine ⟨List.nodup_cons.mpr ⟨h1, hf⟩, hs, ?_, hg⟩
    intro a hacons hasl
    rcases List.mem_cons.mp hacons with rfl | haf
    · exact h2 hasl
    · exact hd haf hasl

theorem Inv.reclaim {m : CacheManager} (h : Inv m) : Inv m.reclaim.2 := by
  obtain ⟨hf, hs, hd, hg⟩ := h
  unfold CacheManager.reclaim
  by_cases hlen : m.fast.length > m.fast_cap
  · simp only [if_pos hlen]
    cases hl : m.fast.getLast? with
    | none => exact ⟨hf, hs, hd, hg⟩
    | some reclaimed =>
      refine ⟨hf.sublist (List.dropLast_sublist _), hs, ?_, ?_⟩
      · intro a haf hasl
        exact hd ((List.dropLast_sublist _).subset haf) hasl
      · dsimp only
        split_ifs with htrim
        · simp only [List.length_dropLast, List.length_cons]
          omega
        · simp only [List.length_cons] at htrim ⊢
          omega
  · simp only [if_neg hlen]
    cases hl : m.slow.getLast? with
    | none => exact ⟨hf, hs, hd, hg⟩
    | some reclaimed =>
      refine ⟨hf, hs.sublist (List.dropLast_sublist _), ?_, hg⟩
      intro a haf hasl
      exact hd haf ((List.dropLast_sublist _).subset hasl)

theorem Inv.step {m : CacheManager} (h : Inv m) (op : CacheOp) :
    Inv (m.step op) := by
  cases op with
  | access item => exact h.access item
  | reclaim => exact h.reclaim

theorem Inv.foldl (ops : List CacheOp) :
    ∀ m : CacheManager, Inv m → Inv (ops.foldl CacheManager.step m) := by
  induction ops with
  | nil => exact fun m h => h
  | cons op rest ih => exact fun m h => ih _ (h.step op)

theorem Inv.run (length : Nat) (ops : List CacheOp) :
    Inv (runCache length ops) :=
  Inv.foldl ops _ (Inv.new length)

theorem CacheManager.step_caps (m : CacheManager) (op : CacheOp) :
    (m.step op).graveyard_cap = m.graveyard_cap ∧
      (m.step op).fast_cap = m.fast_cap := by
  cases op with
  | access item =>
    simp only [CacheManager.step, CacheManager.access]
    split_ifs <;> exact ⟨rfl, rfl⟩
  | reclaim =>
    simp only [CacheManager.step, CacheManager.reclaim]
    split_ifs with h
    · cases m.fast.getLast? <;> exact ⟨rfl, rfl⟩
    · cases m.slow.getLast? <;> exact ⟨rfl, rfl⟩

theorem runCache_caps (length : Nat) (ops : List CacheOp) :
    (runCache length ops).graveyard_cap = length / 2 ∧
      (runCache length ops).fast_cap = length / 4 := by
  suffices h : ∀ m : CacheManager,
      (ops.foldl CacheManager.step m).graveyard_cap = m.graveyard_cap ∧
        (ops.foldl CacheManager.step m).fast_cap = m.fast_cap by
    exact h (CacheManager.new length)
  induction ops with
  | nil => exact fun m => ⟨rfl, rfl⟩
  | cons op rest ih =>
    intro m
    refine ⟨?_, ?_⟩
    · rw [List.foldl_cons, (ih (m.step op)).1, (m.step_caps op).1]
    · rw [List.foldl_cons, (ih (m.step op)).2, (m.step_caps op).2]

theorem not_mem_dropLast_of_getLast? {l : List Nat} (hn : l.Nodup) {a : Nat}
    (hl : l.getLast? = some a) : a ∉ l.dropLast := by
  intro hmem
  have hsplit : l.dropLast ++ [a] = l := List.dropLast_append_getLast? a hl
  rw [← hsplit] at hn
  exact (List.disjoint_of_nodup_append hn) hmem (List.mem_singleton.mpr rfl)

theorem mem_of_getLast? {l : List Nat} {a : Nat} (hl : l.getLast? = some a) :
    a ∈ l := by
  have hsplit : l.dropLast ++ [a] = l := List.dropLast_append_getLast? a hl
  rw [← hsplit]
  exact List.mem_append_right _ (List.mem_singleton.mpr rfl)

end Acorn.Cache

namespace Acorn.Cache

/-- Claim C3 (amended): for every sequence of access/reclaim calls on a
replacer created with capacity L, whenever `reclaim` returns `some k`,
immediately afterwards `k` is a member of neither the fast nor the slow
queue (it may remain in the graveyard: the fast-path `reclaim` pushes the
reclaimed key into the graveyard as it returns it). -/
theorem reclaim_returns_uncached_key (length : Nat) (ops : List CacheOp)
    (k : Nat) (h : (runCache length ops).reclaim.1 = some k) :
    k ∉ (runCache length ops).reclaim.2.fast ∧
      k ∉ (runCache length ops).reclaim.2.slow := by
  obtain ⟨hf, hs, hd, hg⟩ := Inv.run length ops
  revert h
  generalize runCache length ops = m at *
  unfold CacheManager.reclaim
  by_cases hlen : m.fast.length > m.fast_cap
  · simp only [if_pos hlen]
    cases hl : m.fast.getLast? with
    | none => intro h; cases h
    | some reclaimed =>
      intro h
      obtain rfl : reclaimed = k := by cases h; rfl
      dsimp only
      refine ⟨not_mem_dropLast_of_getLast? hf hl, ?_⟩
      exact hd (mem_of_getLast? hl)
  · simp only [if_neg hlen]
    cases hl : m.slow.getLast? with
    | none => intro h; cases h
    | some reclaimed =>
      intro h
      obtain rfl : reclaimed = k := by cases h; rfl
      dsimp only
      refine ⟨?_, not_mem_dropLast_of_getLast? hs hl⟩
      intro hkf
      exact hd hkf (mem_of_getLast? hl)

/-- Witness for C3's amended theorem: on the replacer with L = 8, after
accessing 1, 2 and 3, `reclaim` returns key 1, and 1 is then in neither the
fast nor the slow queue. -/
theorem reclaim_returns_uncached_key_witness :
    (runCache 8 [.access 1, .access 2, .access 3]).reclaim.1 = some 1 ∧
      (1 ∉ (runCache 8 [.access 1, .access 2, .access 3]).reclaim.2.fast ∧
        1 ∉ (runCache 8 [.access 1, .access 2, .access 3]).reclaim.2.slow) :=
  ⟨by decide, reclaim_returns_uncached_key 8 [.access 1, .access 2, .access 3] 1 (by decide)⟩

/-- Counterexample to claim C3 as stated: with L = 8, after accessing
1, 2 and 3, `reclaim` returns `some 1` but key 1 is a member of the
graveyard queue immediately afterwards. -/
theorem reclaimed_key_in_graveyard :
    (runCache 8 [.access 1, .access 2, .access 3]).reclaim.1 = some 1 ∧
      1 ∈ (runCache 8 [.access 1, .access 2, .access 3]).reclaim.2.graveyard := by
  decide

/-- Claim C4 (amended): for every sequence of access/reclaim calls on a
replacer created with capacity L, the graveyard never exceeds
`graveyard_cap = L / 2` elements; the fast queue, however, is not bounded
by `fast_cap + 1`: each access of a key unknown to all three queues grows
it by one regardless of its size. -/
theorem graveyard_never_exceeds_cap (length : Nat) (ops : List CacheOp) :
    (runCache length ops).graveyard.length ≤ length / 2 := by
  have h := (Inv.run length ops).2.2.2
  rwa [(runCache_caps length ops).1] at h

/-- Counterexample to claim C4 as stated: with L = 8 (`fast_cap = 2`),
four accesses of fresh keys leave the fast queue with 4 elements,
exceeding `fast_cap + 1 = 3`. -/
theorem fast_exceeds_cap_plus_one :
    (runCache 8 [.access 1, .access 2, .access 3, .access 4]).fast.length > 8 / 4 + 1 := by
  decide

/-- Claim C5: on a replacer with L = 8, after accessing 1..5, reclaiming
three times (returning 1, 2, 3, which land in the graveyard), then
accessing 1, 2, 3, 1, 3, the next three reclaims return 2, then 1,
then 3. -/
theorem resurrection_lru_scenario :
    (runCache 8 [.access 1, .access 2, .access 3, .access 4, .access 5]).reclaim.1 = some 1 ∧
      (runCache 8 [.access 1, .access 2, .access 3, .access 4, .access 5, .reclaim]).reclaim.1 = some 2 ∧
      (runCache 8 [.access 1, .access 2, .access 3, .access 4, .access 5, .reclaim, .reclaim]).reclaim.1 = some 3 ∧
      (runCache 8 [.access 1, .access 2, .access 3, .access 4, .access 5, .reclaim, .reclaim, .reclaim,
        .access 1, .access 2, .access 3, .access 1, .access 3]).reclaim.1 = some 2 ∧
      (runCache 8 [.access 1, .access 2, .access 3, .access 4, .access 5, .reclaim, .reclaim, .reclaim,
        .access 1, .access 2, .access 3, .access 1, .access 3, .reclaim]).reclaim.1 = some 1 ∧
      (runCache 8 [.access 1, .access 2, .access 3, .access 4, .access 5, .reclaim, .reclaim, .reclaim,
        .access 1, .access 2, .access 3, .access 1, .access 3, .reclaim, .reclaim]).reclaim.1 = some 3 := by
  decide

end Acorn.Cache

namespace Acorn.Storage

/-- Claim C10: for the `Vec<u8>` implementation of `StorageFile`, `read_at`
and `write_at` return `Ok(buf.len())` (with the expected bytes) whenever
`offset + buf.len() <= self.len()`; whenever `offset + buf.len() >
self.len()` the computed range is shorter than `buf` or starts past the
end of the vector, so the slice indexing or `copy_from_slice` panics
(modelled as `none`): the operations are total only under the
precondition. -/
theorem read_write_at_total_iff (self buf : List Nat) (offset : Nat) :
    (offset + buf.length ≤ self.length →
      read_at self buf offset = some ((self.drop offset).take buf.length, buf.length) ∧
        write_at self buf offset =
          some (self.take offset ++ buf ++ self.drop (offset + buf.length), buf.length)) ∧
    (self.length < offset + buf.length →
      read_at self buf offset = none ∧ write_at self buf offset = none) := by
  constructor
  · intro h
    have hmin : min (offset + buf.length) self.length = offset + buf.length :=
      Nat.min_eq_left h
    have hle : offset ≤ offset + buf.length := Nat.le_add_right _ _
    have hcancel : offset + buf.length - offset = buf.length := by omega
    constructor
    · unfold read_at get_buf_range sliceRange
      simp only [hmin, hcancel]
      rw [if_pos ⟨hle, h⟩]
      have hlen : ((self.drop offset).take buf.length).length = buf.length := by
        simp only [List.length_take, List.length_drop]
        omega
      simp [hlen]
    · unfold write_at get_buf_range
      simp only [hmin, hcancel]
      rw [if_pos ⟨hle, h⟩]
      simp
  · intro h
    have hmin : min (offset + buf.length) self.length = self.length :=
      Nat.min_eq_right (Nat.le_of_lt h)
    by_cases hoff : offset ≤ self.length
    · have hshort : self.length - offset < buf.length := by omega
      constructor
      · unfold read_at get_buf_range sliceRange
        simp only [hmin]
        rw [if_pos ⟨hoff, Nat.le_refl _⟩]
        dsimp only
        rw [if_neg (by simp only [List.length_take, List.length_drop]; omega)]
      · unfold write_at get_buf_range
        simp only [hmin]
        rw [if_pos ⟨hoff, Nat.le_refl _⟩]
        rw [if_neg (by omega)]
    · constructor
      · unfold read_at get_buf_range sliceRange
        simp only [hmin]
        rw [if_neg]
        intro hcontra
        exact hoff hcontra.1
      · unfold write_at get_buf_range
        simp only [hmin]
        rw [if_neg]
        intro hcontra
        exact hoff hcontra.1

end Acorn.Storage

namespace Acorn.WalFileFormat

/-- Claim C6: loading a WAL file fails with exactly the error matching the
first header defect, in the source's checking order: `NotAWalFile` when
the magic is not "ACNL"; `Corrupted` when the byte-order byte is neither
0 nor 1; `ByteOrderMismatch` when the byte order is valid but non-native;
`PageSizeMismatch` when the page size differs from the configured one;
and `load` succeeds when none of these defects are present. -/
theorem load_header_validation (native : ByteOrder) (header : WalHeader)
    (params_page_size : Nat) :
    (header.magic ≠ WAL_MAGIC →
      load native header params_page_size = .error .NotAWalFile) ∧
    (header.magic = WAL_MAGIC →
      ByteOrder.from_byte header.byte_order = none →
      load native header params_page_size = .error .Corrupted) ∧
    (∀ byte_order, header.magic = WAL_MAGIC →
      ByteOrder.from_byte header.byte_order = some byte_order →
      byte_order ≠ native →
      load native header params_page_size = .error (.ByteOrderMismatch byte_order)) ∧
    (header.magic = WAL_MAGIC →
      ByteOrder.from_byte header.byte_order = some native →
      header.page_size ≠ params_page_size →
      load native header params_page_size =
        .error (.PageSizeMismatch header.page_size params_page_size)) ∧
    (header.magic = WAL_MAGIC →
      ByteOrder.from_byte header.byte_order = some native →
      header.page_size = params_page_size →
      load native header params_page_size =
        .ok { log_start := header.log_start, page_size := header.page_size }) := by
  refine ⟨?_, ?_, ?_, ?_, ?_⟩
  · intro hmagic
    unfold load
    rw [if_pos hmagic]
  · intro hmagic hbyte
    unfold load
    rw [if_neg (by simp [hmagic]), hbyte]
  · intro byte_order hmagic hbyte hnative
    unfold load
    rw [if_neg (by simp [hmagic]), hbyte]
    simp only [if_pos hnative]
  · intro hmagic hbyte hpage
    unfold load
    rw [if_neg (by simp [hmagic]), hbyte]
    dsimp only
    rw [if_neg (by simp), if_pos hpage]
  · intro hmagic hbyte hpage
    unfold load
    rw [if_neg (by simp [hmagic]), hbyte]
    dsimp only
    rw [if_neg (by simp), if_neg (by simp [hpage])]

end Acorn.WalFileFormat

namespace Acorn.PageStore

theorem alookup_aremove {α β : Type} [DecidableEq α] (k : α)
    (l : List (α × β)) : alookup k (aremove k l) = none := by
  induction l with
  | nil => rfl
  | cons p t ih =>
    obtain ⟨a, b⟩ := p
    unfold aremove
    by_cases hak : a = k
    · rw [if_pos hak]
      exact ih
    · rw [if_neg hak]
      unfold alookup
      rw [if_neg hak]
      exact ih

theorem current_generation_with_current (g : GenerationQueue)
    (f f' : WalFile) (h : g.current_generation = some f) :
    (g.with_current f').current_generation = some f' := by
  unfold GenerationQueue.current_generation at h ⊢
  unfold GenerationQueue.with_current
  cases hg : g.generations.getLast? with
  | none => rw [hg] at h; cases h
  | some gen =>
    dsimp only
    rw [List.getLast?_concat]
    rfl

theorem cleanup_collect_sound (gens : List WalGeneration)
    (first_needed current g : Nat)
    (h : g ∈ cleanup_collect gens first_needed current) :
    g < first_needed ∧ g ≠ current := by
  induction gens with
  | nil =>
    unfold cleanup_collect at h
    cases h
  | cons gen rest ih =>
    unfold cleanup_collect at h
    by_cases hc : first_needed ≤ gen.gen_num ∨ gen.gen_num = current
    · rw [if_pos hc] at h
      cases h
    · rw [if_neg hc] at h
      push_neg at hc
      rcases List.mem_cons.mp h with rfl | hmem
      · exact ⟨hc.1, hc.2⟩
      · exact ih hmem

/-- Claim C9: for every `State`, `cache_did_flush` leaves `dirty_pages`
empty and the `transactions` map unchanged; it performs no file I/O and
modifies no other field of the WAL (the generation queue is untouched). -/
theorem cache_did_flush_frame (w : Wal) :
    w.cache_did_flush.state.dirty_pages = [] ∧
      w.cache_did_flush.state.transactions = w.state.transactions ∧
      w.cache_did_flush.generations = w.generations :=
  ⟨rfl, rfl, rfl⟩

/-- Claim C8: generation cleanup never deletes a generation whose number is
at least `first_needed_generation` (the minimum `first_gen` over the open
transactions, or `u64::MAX` when none are open), nor the current
generation. -/
theorem cleanup_spares_needed_generations (w : Wal) (g : Nat)
    (h : g ∈ w.cleanup_generations.1) :
    g < w.state.first_needed_generation ∧
      g ≠ w.generations.current_gen_num := by
  simp only [Wal.cleanup_generations] at h
  exact cleanup_collect_sound _ _ _ _ h

/-- Witness for C8's theorem: on a WAL with generations 1 and 2 (2 current)
and no open transaction, cleanup deletes generation 1, and indeed 1 is
below `first_needed_generation` (= `u64::MAX`) and is not the current
generation. -/
theorem cleanup_spares_needed_generations_witness :
    1 ∈ cleanupWal.cleanup_generations.1 ∧
      (1 < cleanupWal.state.first_needed_generation ∧
        1 ≠ cleanupWal.generations.current_gen_num) :=
  ⟨by decide, cleanup_spares_needed_generations cleanupWal 1 (by decide)⟩

/-- Claim C1: on the two-generation recovery scenario of spec §4.D.5,
`recover` invokes the handle on exactly two `PartialWriteOp`s, in order:
the redo of the committed write at index (3,10) to page (25,69) offset
100 with bytes [1,2,3,4], then the compensation at index (3,40) for the
in-flight transaction, to page (100,200) offset 25 with bytes
[2,2,2,2]. -/
theorem recover_scenario_ops :
    recoverOps scenarioWal =
      some
        [{ index := { generation := 3, offset := 10 }
           page_address := { segment_num := 25, page_num := 69 }
           offset := 100
           buf := [1, 2, 3, 4] },
         { index := { generation := 3, offset := 40 }
           page_address := { segment_num := 100, page_num := 200 }
           offset := 25
           buf := [2, 2, 2, 2] }] := by
  decide

end Acorn.PageStore

namespace Acorn.PageStore

/-- Claim C2 (amended): when an append to the current WAL generation file
fails with an I/O error, `log_write` and `log_commit` propagate that error
unchanged (wrapped as `StorageError::File`), but the logical operation IS
partially observable: `push_raw_item` updates the in-memory `State` before
attempting the append, so after the failed call the `State` is the one
with the item's effect applied, not the one from before the call. -/
theorem append_failure_keeps_state_update (w : Wal) (file : WalFile)
    (e : Nat) (wlog : WriteLog) (clog : CommitLog)
    (hcur : w.generations.current_generation = some file)
    (hfail : file.fail_push = some e) :
    (w.log_write wlog).1 = .error (.File e) ∧
      (w.log_write wlog).2.state =
        w.state.handle_item
          { generation := w.generations.current_gen_num, offset := file.next_offset }
          (.write (w.create_write_data wlog)) ∧
      (w.log_commit clog).1 = .error (.File e) ∧
      (w.log_commit clog).2.state =
        w.state.handle_item
          { generation := w.generations.current_gen_num, offset := file.next_offset }
          (.commit (w.create_transaction_data clog.transaction_id)) := by
  have hpush : ∀ item : Item,
      w.push_raw_item item =
        (.error (.File e),
         { w with
             state := w.state.handle_item
               { generation := w.generations.current_gen_num, offset := file.next_offset }
               item }) := by
    intro item
    simp only [Wal.push_raw_item, WalFile.push_item, hcur, hfail]
  refine ⟨?_, ?_, ?_, ?_⟩
  · simp only [Wal.log_write, hpush]
  · simp only [Wal.log_write, hpush]
  · simp only [Wal.log_commit, hpush]
  · simp only [Wal.log_commit, hpush]

/-- Witness for C2's amended theorem: on the concrete failing WAL, the
error is `File 5` and the state after the failed `log_write` is the state
with the write tracked. -/
theorem append_failure_keeps_state_update_witness :
    (failingWal.log_write sampleWriteLog).1 = .error (.File 5) ∧
      (failingWal.log_write sampleWriteLog).2.state =
        failingWal.state.handle_item { generation := 0, offset := 10 }
          (.write (failingWal.create_write_data sampleWriteLog)) := by
  have h := append_failure_keeps_state_update failingWal
    { items := [], next_offset := 10, flushed_len := 0, fail_push := some 5 }
    5 sampleWriteLog { transaction_id := 7 } (by decide) (by decide)
  exact ⟨h.1, h.2.1⟩

/-- Counterexample to claim C2 as stated: on the concrete failing WAL, the
failed `log_write` propagates the I/O error, yet the in-memory `State`
after the call differs from the `State` before it (transaction 7 is now
tracked and the page is dirty). -/
theorem failed_append_changes_state :
    (failingWal.log_write sampleWriteLog).1 = .error (.File 5) ∧
      (failingWal.log_write sampleWriteLog).2.state ≠ failingWal.state :=
  ⟨rfl, by decide⟩

/-- Claim C7: `log_commit` appends a `Commit` item to the current
generation, removes the committed transaction from the in-memory `State`'s
transactions map, flushes the current generation file, and returns the
`Commit` item's `WalIndex`; `log_write` appends its `Write` item and
returns its `WalIndex` without flushing (and leaves the state with the
write tracked). -/
theorem log_commit_flushes_log_write_does_not (w : Wal) (file : WalFile)
    (wlog : WriteLog) (clog : CommitLog)
    (hcur : w.generations.current_generation = some file)
    (hok : file.fail_push = none) :
    (w.log_commit clog).1 =
      .ok { generation := w.generations.current_gen_num, offset := file.next_offset } ∧
      (w.log_commit clog).2.generations.current_generation =
        some
          { items := file.items ++
              [(file.next_offset, .commit (w.create_transaction_data clog.transaction_id))]
            next_offset := file.next_offset + ITEM_SPACING
            flushed_len := file.items.length + 1
            fail_push := file.fail_push } ∧
      alookup clog.transaction_id (w.log_commit clog).2.state.transactions = none ∧
      (w.log_write wlog).1 =
        .ok { generation := w.generations.current_gen_num, offset := file.next_offset } ∧
      (w.log_write wlog).2.generations.current_generation =
        some
          { items := file.items ++ [(file.next_offset, .write (w.create_write_data wlog))]
            next_offset := file.next_offset + ITEM_SPACING
            flushed_len := file.flushed_len
            fail_push := file.fail_push } ∧
      (w.log_write wlog).2.state =
        w.state.handle_item
          { generation := w.generations.current_gen_num, offset := file.next_offset }
          (.write (w.create_write_data wlog)) := by
  have hpush : ∀ item : Item,
      w.push_raw_item item =
        (.ok { generation := w.generations.current_gen_num, offset := file.next_offset },
         { w with
             state := w.state.handle_item
               { generation := w.generations.current_gen_num, offset := file.next_offset }
               item
             generations := w.generations.with_current
               { items := file.items ++ [(file.next_offset, item)]
                 next_offset := file.next_offset + ITEM_SPACING
                 flushed_len := file.flushed_len
                 fail_push := file.fail_push } }) := by
    intro item
    simp only [Wal.push_raw_item, WalFile.push_item, hcur, hok]
  have hcommit :
      w.log_commit clog =
        (.ok { generation := w.generations.current_gen_num, offset := file.next_offset },
         ({ w with
             state := w.state.handle_item
               { generation := w.generations.current_gen_num, offset := file.next_offset }
               (.commit (w.create_transaction_data clog.transaction_id))
             generations := w.generations.with_current
               { items := file.items ++
                   [(file.next_offset, .commit (w.create_transaction_data clog.transaction_id))]
                 next_offset := file.next_offset + ITEM_SPACING
                 flushed_len := file.flushed_len
                 fail_push := file.fail_push } } : Wal).flush_current) := by
    simp only [Wal.log_commit, hpush]
  have hwrite :
      w.log_write wlog =
        (.ok { generation := w.generations.current_gen_num, offset := file.next_offset },
         { w with
             state := w.state.handle_item
               { generation := w.generations.current_gen_num, offset := file.next_offset }
               (.write (w.create_write_data wlog))
             generations := w.generations.with_current
               { items := file.items ++ [(file.next_offset, .write (w.create_write_data wlog))]
                 next_offset := file.next_offset + ITEM_SPACING
                 flushed_len := file.flushed_len
                 fail_push := file.fail_push } }) := by
    simp only [Wal.log_write, hpush]
  have hcurmid :
      (w.generations.with_current
        { items := file.items ++
            [(file.next_offset, .commit (w.create_transaction_data clog.transaction_id))]
          next_offset := file.next_offset + ITEM_SPACING
          flushed_len := file.flushed_len
          fail_push := file.fail_push }).current_generation =
      some
        { items := file.items ++
            [(file.next_offset, .commit (w.create_transaction_data clog.transaction_id))]
          next_offset := file.next_offset + ITEM_SPACING
          flushed_len := file.flushed_len
          fail_push := file.fail_push } :=
    current_generation_with_current _ file _ hcur
  refine ⟨?_, ?_, ?_, ?_, ?_, ?_⟩
  · rw [hcommit]
  · rw [hcommit]
    simp only [Wal.flush_current, hcurmid]
    rw [current_generation_with_current _ _ _ hcurmid]
    simp only [WalFile.flush, List.length_append, List.length_cons, List.length_nil]
  · rw [hcommit]
    simp only [Wal.flush_current, hcurmid]
    exact alookup_aremove _ _
  · rw [hwrite]
  · rw [hwrite]
    dsimp only
    exact current_generation_with_current _ file _ hcur
  · rw [hwrite]

/-- Witness for C7's theorem: on the healthy one-generation WAL with
transaction 7 open, `log_commit` returns index (0,10) and removes
transaction 7 from the state, and `log_write` returns index (0,10). -/
theorem log_commit_flushes_log_write_does_not_witness :
    (healthyWal.log_commit { transaction_id := 7 }).1 =
        .ok { generation := 0, offset := 10 } ∧
      alookup 7 (healthyWal.log_commit { transaction_id := 7 }).2.state.transactions = none ∧
      (healthyWal.log_write sampleWriteLog).1 = .ok { generation := 0, offset := 10 } := by
  have h := log_commit_flushes_log_write_does_not healthyWal emptyFile
    sampleWriteLog { transaction_id := 7 } (by decide) (by decide)
  exact ⟨h.1, h.2.2.1, h.2.2.2.1⟩

end Acorn.PageStore
